import Mathlib

/-!
# Verification of the DAO_Tools proposal payment extraction and valuation engine

Shallow embedding of `src/DaoLedger/utils/data_processor.py` (class
`DataProcessor`) together with the amount-category display order from
`src/DaoLedger/utils/report_generator.py`.

Modelling conventions:
* Python numbers (ints and floats used for amounts and prices) are embedded
  as `ℚ`; the claims under study are about control flow and exact arithmetic
  identities, not floating-point rounding.
* JSON values decoded from proposal payloads are embedded as the inductive
  `JVal`; Python dicts become association lists in insertion order (keys
  unique, as produced by `json.loads`).
* Python exceptions that the source catches are modelled explicitly: loops
  that can raise return the payments accumulated before the raise together
  with an "aborted" flag, mirroring `try/except` blocks that return the
  partial list.
* The two effectful decodings that the source delegates to libraries —
  `base64.b64decode` + UTF-8 decoding (and, for wasm payloads, the composite
  base64/UTF-8/`json.loads` chain) and the CoinGecko HTTP lookup — are
  passed in as oracle functions (`Option`-valued: `none` models a raised
  decoding exception resp. an unavailable price).
-/

namespace DaoLedger

/-- JSON-like values, the shape of decoded wasm payloads and generic
messages (`json.loads` results). Objects are association lists in insertion
order. -/
inductive JVal where
  | str : String → JVal
  | num : Int → JVal
  | bool : Bool → JVal
  | null : JVal
  | arr : List JVal → JVal
  | obj : List (String × JVal) → JVal
deriving Repr

/-- Python truthiness (`if recipient and total:` …) for decoded JSON
values. -/
def pyTruthy : JVal → Bool
  | .str s => s ≠ ""
  | .num n => n ≠ 0
  | .bool b => b
  | .null => false
  | .arr l => !l.isEmpty
  | .obj l => !l.isEmpty

/-- Digits of a decimal string folded to a natural number. -/
def digitsToNat (cs : List Char) : Nat :=
  cs.foldl (fun acc c => 10 * acc + (c.toNat - '0'.toNat)) 0

/-- Python `str.isdigit()` on ASCII input: non-empty and all digits. -/
def isDigitStr (s : String) : Bool :=
  s ≠ "" && s.toList.all Char.isDigit

/-- Python `int(s)` on a string: optional sign followed by digits;
`none` models a raised `ValueError`. (Whitespace/underscore tolerance of
CPython is not needed by any input considered here.) -/
def pyInt? (s : String) : Option Int :=
  match s.toList with
  | '-' :: rest =>
      if rest ≠ [] && rest.all Char.isDigit then some (-(digitsToNat rest : Int)) else none
  | '+' :: rest =>
      if rest ≠ [] && rest.all Char.isDigit then some (digitsToNat rest : Int) else none
  | cs =>
      if cs ≠ [] && cs.all Char.isDigit then some (digitsToNat cs : Int) else none

/-- Python `str(v)` for the decoded JSON values that reach `str(...)` calls
in the source (amount fields, denominations). For strings and numbers this
is exact; for structured values the JSON rendering stands in for Python's
`repr`-style rendering (no claim depends on that case). -/
def jvalStr : JVal → String
  | .str s => s
  | .num n => toString n
  | .bool b => if b then "True" else "False"
  | .null => "None"
  | .arr _ => "[...]"
  | .obj _ => "\x7b...\x7d"

/-- Characters matched by the `[a-z0-9]` class in the address regexes. -/
def isAddrChar (c : Char) : Bool :=
  (Char.ofNat 97 ≤ c && c ≤ Char.ofNat 122) || (Char.ofNat 48 ≤ c && c ≤ Char.ofNat 57)

/-- Length of the maximal leading run of characters satisfying `p`. -/
def runLen (p : Char → Bool) : List Char → Nat
  | [] => 0
  | c :: cs => if p c then runLen p cs + 1 else 0

/-- Worker for `findOsmoAddrs`. The `fuel` argument only makes the
recursion structural (every step consumes at least one character, so
`fuel = l.length` never runs out); the scan itself follows the regex. -/
def findOsmoAddrsF : Nat → List Char → List String
  | 0, _ => []
  | _, [] => []
  | fuel + 1, c :: cs =>
    if (c :: cs).take 5 = "osmo1".toList then
      let rest := (c :: cs).drop 5
      let r := runLen isAddrChar rest
      if 38 ≤ r then
        let n := min r 58
        ("osmo1" ++ String.mk (rest.take n)) :: findOsmoAddrsF fuel (rest.drop n)
      else findOsmoAddrsF fuel cs
    else findOsmoAddrsF fuel cs

/-- `re.findall(r'osmo1[a-z0-9]\x7b38,58\x7d', s)`: non-overlapping
left-to-right scan; at each match position the greedy quantifier takes at
most 58 tail characters and requires at least 38. -/
def findOsmoAddrs (l : List Char) : List String :=
  findOsmoAddrsF l.length l

/-- Worker for `findUosmoNums` (`fuel` as in `findOsmoAddrsF`). -/
def findUosmoNumsF : Nat → List Char → List String
  | 0, _ => []
  | _, [] => []
  | fuel + 1, c :: cs =>
    let r := runLen Char.isDigit (c :: cs)
    if 0 < r then
      let rest := (c :: cs).drop r
      if rest.take 5 = "uosmo".toList then
        String.mk ((c :: cs).take r) :: findUosmoNumsF fuel (rest.drop 5)
      else findUosmoNumsF fuel rest
    else findUosmoNumsF fuel cs

/-- The digit groups of `re.findall(r'(\d+)uosmo', s)` (and, suffixed with
`uosmo`, the full matches of `re.findall(r'\d+uosmo', s)`): maximal digit
runs immediately followed by the literal `uosmo`. A maximal digit run not
followed by the literal can be skipped whole, since a match starting inside
it would hit the same non-`uosmo` boundary. -/
def findUosmoNums (l : List Char) : List String :=
  findUosmoNumsF l.length l

/-- One canonical extracted payment record (one row appended to the
`payments` list by the extractor paths; the dict keys of the source are the
field names below). Fields that some paths omit from their dict are
`Option`-valued with `none` for "key absent". -/
structure Payment where
  proposalId : String := "Unknown"
  proposalTitle : Option String := none
  proposalText : String := ""
  proposalDate : Option String := none
  subunit : String := ""
  subunitAddress : String := ""
  recipient : JVal := .str ""
  amountRaw : ℚ := 0
  amountOsmo : ℚ := 0
  denom : String := ""
  messageType : String := ""
  contractMethod : Option String := none
  contractAddress : Option String := none
  contractTitle : Option String := none
  contractOwner : Option String := none
  txCategory : Option String := none
deriving Repr

/-- One `\x7bdenom, amount\x7d` coin entry of a bank-send amount list or a
wasm `funds` array (`coin.get('denom','')`, `coin.get('amount','0')`
defaults already applied). -/
structure Coin where
  denom : String := ""
  amount : String := "0"
deriving Repr, DecidableEq

/-- The `bank['send']` payload: `to_address` and coin list, with the
source's `.get` defaults applied. -/
structure BankSend where
  to_address : String := ""
  amount : List Coin := []
deriving Repr

/-- The `wasm['execute']` payload. `contract` stands for
`execute_msg.get('contract','') or execute_msg.get('contract_addr','')`. -/
structure ExecuteMsg where
  contract : String := ""
  msg : JVal := .obj []
  funds : List Coin := []
deriving Repr

/-- Minimal JSON string escaping (quote, backslash, newline, tab, CR as in
`json.dumps`; other characters pass through — no claim depends on the
escaping of exotic characters). -/
def jsonEscape (s : String) : String :=
  String.join (s.toList.map fun c =>
    if c = Char.ofNat 34 then "\\\""
    else if c = Char.ofNat 92 then "\\\\"
    else if c = Char.ofNat 10 then "\\n"
    else if c = Char.ofNat 9 then "\\t"
    else if c = Char.ofNat 13 then "\\r"
    else String.mk [c])

/-- `json.dumps` with the default separators `", "` and `": "`, used by
`process_other_message` to serialize the message before regex scanning. -/
def jsonDumps : JVal → String
  | .str s => "\"" ++ jsonEscape s ++ "\""
  | .num n => toString n
  | .bool b => if b then "true" else "false"
  | .null => "null"
  | .arr l => "[" ++ String.intercalate ", " (l.attach.map fun x => jsonDumps x.1) ++ "]"
  | .obj l => "\x7b" ++
      String.intercalate ", "
        (l.attach.map fun x => "\"" ++ jsonEscape x.1.1 ++ "\": " ++ jsonDumps x.1.2) ++
      "\x7d"
decreasing_by
  · have h := List.sizeOf_lt_of_mem x.2
    simp only [JVal.arr.sizeOf_spec]
    omega
  · have h := List.sizeOf_lt_of_mem x.2
    obtain ⟨⟨k, v⟩, hx⟩ := x
    simp only [JVal.obj.sizeOf_spec, Prod.mk.sizeOf_spec] at *
    omega

/-- `DataProcessor.process_bank_message` coin loop body: one payment per
coin; `int(coin.get('amount','0'))` raising `ValueError` aborts the loop
(the enclosing `except` returns the payments accumulated so far, flagged
`true` here). -/
def bankCoinsLoop (toAddress pid : String) (ptitle : String) (ptext : String)
    (pdate subunit subAddr : String) : List Coin → List Payment × Bool
  | [] => ([], false)
  | coin :: rest =>
    match pyInt? coin.amount with
    | none => ([], true)
    | some n =>
      let osmo : ℚ := if coin.denom = "uosmo" then (n : ℚ) / 1000000 else (n : ℚ)
      let p : Payment :=
        { proposalId := pid, proposalTitle := some ptitle, proposalText := ptext,
          proposalDate := some pdate, subunit := subunit, subunitAddress := subAddr,
          recipient := .str toAddress, amountRaw := (n : ℚ), amountOsmo := osmo,
          denom := coin.denom, messageType := "bank_send" }
      let (ps, ab) := bankCoinsLoop toAddress pid ptitle ptext pdate subunit subAddr rest
      (p :: ps, ab)

/-- `DataProcessor.process_bank_message`: if the message has a `send` key,
emit one payment per coin of `send.amount` to `send.to_address`; no
comparison against the sub-unit's own address is made. -/
def process_bank_message (send? : Option BankSend) (pid ptitle ptext pdate subunit subAddr : String) :
    List Payment :=
  match send? with
  | none => []
  | some s => (bankCoinsLoop s.to_address pid ptitle ptext pdate subunit subAddr s.amount).1

/-- `DataProcessor.process_stargate_message`: base64-decode the opaque
`value` (the `b64` oracle models `base64.b64decode` composed with
best-effort UTF-8 decoding; `none` models a raised exception, caught and
yielding no payments), regex-scan for addresses and `uosmo` amounts, and
emit one payment per found address different from the sub-unit address,
all carrying the first found amount. -/
def process_stargate_message (b64 : String → Option String) (value : String)
    (pid ptitle ptext pdate subunit subAddr : String) : List Payment :=
  if value = "" then []
  else
    match b64 value with
    | none => []
    | some decoded =>
      let addresses := findOsmoAddrs decoded.toList
      let amounts := (findUosmoNums decoded.toList).map (· ++ "uosmo")
      if !addresses.isEmpty && !amounts.isEmpty then
        (addresses.filter (· ≠ subAddr)).map fun addr =>
          let amt0 := (amounts.headD "0uosmo").replace "uosmo" ""
          let raw : ℚ := ((pyInt? amt0).getD 0 : Int)
          { proposalId := pid, proposalTitle := some ptitle, proposalText := ptext,
            proposalDate := some pdate, subunit := subunit, subunitAddress := subAddr,
            recipient := .str addr, amountRaw := raw, amountOsmo := raw / 1000000,
            denom := "uosmo", messageType := "stargate" }
      else []

/-- `DataProcessor.process_other_message`: serialize the message to JSON,
regex-scan for addresses and `uosmo` amounts, drop the sub-unit's own
address from the recipients, and emit one payment per remaining address
with the first found amount. -/
def process_other_message (msg : JVal) (pid ptitle ptext pdate subunit subAddr : String) :
    List Payment :=
  let s := jsonDumps msg
  let addresses := findOsmoAddrs s.toList
  let amounts := findUosmoNums s.toList
  let recipients := addresses.filter (· ≠ subAddr)
  if !recipients.isEmpty && !amounts.isEmpty then
    recipients.map fun addr =>
      let raw : ℚ := ((pyInt? (amounts.headD "0")).getD 0 : Int)
      { proposalId := pid, proposalTitle := some ptitle, proposalText := ptext,
        proposalDate := some pdate, subunit := subunit, subunitAddress := subAddr,
        recipient := .str addr, amountRaw := raw, amountOsmo := raw / 1000000,
        denom := "uosmo", messageType := "other" }
  else []

/-- `l₂` occurs as a contiguous sublist of `l₁`. -/
def charsInfix (needle : List Char) : List Char → Bool
  | [] => needle.isEmpty
  | c :: cs => needle.isPrefixOf (c :: cs) || charsInfix needle cs

/-- Python `needle in hay` on strings (substring containment). -/
def strContains (hay needle : String) : Bool :=
  charsInfix needle.toList hay.toList

/-- `DataProcessor._decode_wasm_message`: a string payload goes through
base64 → UTF-8 → `json.loads` (the `dec` oracle; `none` models any raised
decode error, turned into an empty dict); a dict passes through; anything
else yields an empty dict. -/
def decode_wasm_message (dec : String → Option JVal) : JVal → JVal
  | .str s => (dec s).getD (.obj [])
  | .obj o => .obj o
  | _ => .obj []

/-- `DataProcessor._extract_method_name`: the first key of the decoded
message, or the empty string. -/
def extract_method_name (decoded : List (String × JVal)) : String :=
  match decoded with
  | [] => ""
  | (k, _) :: _ => k

/-- `isinstance(v, (str, int)) and str(v).isdigit()`. -/
def isStrOrIntDigit : JVal → Bool
  | .str s => isDigitStr s
  | .num n => isDigitStr (toString n)
  | _ => false

/-- `int(v)` for a value that passed `isStrOrIntDigit` (other inputs are
never reached under that guard). -/
def jvalAmountInt : JVal → Int
  | .str s => (pyInt? s).getD 0
  | .num n => n
  | _ => 0

/-- The shared provenance fields of `base_payment` in
`_parse_contract_execution` (note: no proposal title and no proposal date
are present in that dict). -/
structure BaseP where
  pid : String
  ptext : String
  subunit : String
  subAddr : String
  messageType : String
  method : String
  contract : String

/-- First of the amount keys `['amount','total','value','sum']` present in
the dict with a digit-like value (a present but non-digit value lets the
loop move on to the next key). -/
def findFirstAmount (l : List (String × JVal)) : Option Int :=
  ["amount", "total", "value", "sum"].findSome? fun k =>
    match List.lookup k l with
    | some v => if isStrOrIntDigit v then some (jvalAmountInt v) else none
    | none => none

/-- The payment dict built inside `_extract_recursive_payments`
(`base_payment.copy()` updated with recipient/amount/denom). -/
def mkRecursivePayment (base : BaseP) (rec : JVal) (a : Int) : Payment :=
  { proposalId := base.pid, proposalText := base.ptext, subunit := base.subunit,
    subunitAddress := base.subAddr, recipient := rec, amountRaw := (a : ℚ),
    amountOsmo := (a : ℚ) / 1000000, denom := "uosmo", messageType := base.messageType,
    contractMethod := some base.method, contractAddress := some base.contract }

/-- `DataProcessor._extract_recursive_payments`: walk the decoded value; in
every dict, each of the keys `recipient`/`to`/`beneficiary` holding an
`osmo1…` string yields one payment paired with the dict's first digit-like
amount key, and every value (matched or not) is recursed into; lists are
recursed elementwise. -/
def extract_recursive_payments (base : BaseP) : JVal → List Payment
  | .obj l =>
    (l.attach.map fun x =>
      (if ["recipient", "to", "beneficiary"].contains x.1.1 &&
          (match x.1.2 with | .str s => s.startsWith "osmo1" | _ => false) then
        match findFirstAmount l with
        | some a => [mkRecursivePayment base x.1.2 a]
        | none => []
      else []) ++ extract_recursive_payments base x.1.2).flatten
  | .arr l => (l.attach.map fun x => extract_recursive_payments base x.1).flatten
  | _ => []
decreasing_by
  · have h := List.sizeOf_lt_of_mem x.2
    obtain ⟨⟨k, v⟩, hx⟩ := x
    simp only [JVal.obj.sizeOf_spec, Prod.mk.sizeOf_spec] at *
    omega
  · have h := List.sizeOf_lt_of_mem x.2
    simp only [JVal.arr.sizeOf_spec]
    omega

/-- `DataProcessor._parse_contract_execution`: method name = first key,
method data = its value; an `instantiate_native_payroll_contract` key
triggers the payroll-instantiation record (non-dict method data or
instantiate payload raises, caught by the function's own `except`, which
returns the payments accumulated so far — none); afterwards the recursive
payment scan runs over the method data. -/
def parse_contract_execution (decoded : List (String × JVal))
    (contract pid ptext subunit subAddr : String) : List Payment :=
  let mname := extract_method_name decoded
  let mdata := (List.lookup mname decoded).getD (.obj [])
  let base : BaseP :=
    { pid := pid, ptext := ptext, subunit := subunit, subAddr := subAddr,
      messageType := "wasm_contract_call", method := mname, contract := contract }
  if (List.lookup "instantiate_native_payroll_contract" decoded).isSome then
    match mdata with
    | .obj md =>
      match (List.lookup "instantiate_msg" md).getD (.obj []) with
      | .obj im =>
        let recipient := (List.lookup "recipient" im).getD (.str "")
        let total := (List.lookup "total" im).getD (.str "0")
        let title := (List.lookup "title" im).getD (.str "")
        let owner := (List.lookup "owner" im).getD (.str "")
        let denom :=
          match (List.lookup "denom" im).getD (.obj []) with
          | .obj dl =>
            match List.lookup "native" dl with
            | some dv => jvalStr dv
            | none => jvalStr (.obj dl)
          | dv => jvalStr dv
        (if pyTruthy recipient && pyTruthy total && isDigitStr (jvalStr total) then
          let a : ℚ := (jvalAmountInt total : ℚ)
          [{ proposalId := pid, proposalText := ptext, subunit := subunit,
             subunitAddress := subAddr, recipient := recipient, amountRaw := a,
             amountOsmo := if strContains denom "uosmo" then a / 1000000 else a,
             denom := denom, messageType := "contract_instantiate",
             contractMethod := some mname, contractAddress := some contract,
             contractTitle := some (jvalStr title), contractOwner := some (jvalStr owner) }]
        else []) ++ extract_recursive_payments base mdata
      | _ => []
    | _ => []
  else extract_recursive_payments base mdata

/-- Loop over a `funds` array emitting one payment per coin via `mk`;
`int(fund.get('amount','0'))` raising aborts the loop, keeping the coins
already emitted and setting the flag. -/
def fundsPayLoop (mk : Coin → Int → ℚ → Payment) : List Coin → List Payment × Bool
  | [] => ([], false)
  | f :: fs =>
    match pyInt? f.amount with
    | none => ([], true)
    | some n =>
      let osmo : ℚ := if f.denom = "uosmo" then (n : ℚ) / 1000000 else (n : ℚ)
      let (ps, ab) := fundsPayLoop mk fs
      (mk f n osmo :: ps, ab)

/-- One entry of the decoded-message items loop of `process_wasm_message`:
the `instantiate_native_payroll_contract` and `stake` branches. The `Bool`
flags a raised exception (caught at the function boundary). -/
def wasmEntry (funds : List Coin) (contract pid ptitle ptext pdate subunit subAddr : String)
    (k : String) (v : JVal) : List Payment × Bool :=
  if k = "instantiate_native_payroll_contract" then
    match v with
    | .obj o =>
      match (List.lookup "instantiate_msg" o).getD (.obj []) with
      | .obj im =>
        let recipient? := List.lookup "recipient" im
        let total? := List.lookup "total" im
        match (List.lookup "denom" im).getD (.obj []) with
        | .obj dl =>
          let denom :=
            match List.lookup "native" dl with
            | some dv => jvalStr dv
            | none => "token"
          if (recipient?.map pyTruthy).getD false && (total?.map pyTruthy).getD false then
            let total := total?.getD .null
            let dig := isDigitStr (jvalStr total)
            let a : ℚ := if dig then (jvalAmountInt total : ℚ) else 0
            ([{ proposalId := pid, proposalTitle := some ptitle, proposalText := ptext,
                proposalDate := some pdate, subunit := subunit, subunitAddress := subAddr,
                recipient := recipient?.getD .null, amountRaw := a,
                amountOsmo := if dig then a / 1000000 else 0, denom := denom,
                messageType := "wasm_instantiate_native_payroll_contract",
                contractMethod := some k, contractAddress := some contract }], false)
          else ([], false)
        | _ => ([], true)
      | _ => ([], true)
    | _ => ([], false)
  else if k = "stake" then
    match v with
    | .obj _ =>
      fundsPayLoop
        (fun f n osmo =>
          { proposalId := pid, proposalTitle := some ptitle, proposalText := ptext,
            proposalDate := some pdate, subunit := subunit, subunitAddress := subAddr,
            recipient := .str contract, amountRaw := (n : ℚ), amountOsmo := osmo,
            denom := f.denom, messageType := "wasm_stake", contractMethod := some k,
            contractAddress := some contract, txCategory := some "Staking" })
        funds
    | _ => ([], false)
  else ([], false)

/-- The `for key, value in decoded_msg.items()` loop of
`process_wasm_message`; a raised exception stops the loop, keeping the
payments accumulated so far. -/
def wasmItemsLoop (funds : List Coin) (contract pid ptitle ptext pdate subunit subAddr : String) :
    List (String × JVal) → List Payment × Bool
  | [] => ([], false)
  | (k, v) :: rest =>
    let (ps, ab) := wasmEntry funds contract pid ptitle ptext pdate subunit subAddr k v
    if ab then (ps, true)
    else
      let (ps', ab') := wasmItemsLoop funds contract pid ptitle ptext pdate subunit subAddr rest
      (ps ++ ps', ab')

/-- One `transfer_type` iteration of the transfer/send section of
`process_wasm_message` (a non-dict payload under the key raises at
`.get('recipient')`). -/
def wasmTransferOne (decoded : List (String × JVal)) (tt : String)
    (contract pid ptitle ptext pdate subunit subAddr : String) : List Payment × Bool :=
  match List.lookup tt decoded with
  | none => ([], false)
  | some v =>
    match v with
    | .obj o =>
      let rec? := List.lookup "recipient" o
      let amt? := List.lookup "amount" o
      if (rec?.map pyTruthy).getD false && (amt?.map pyTruthy).getD false then
        let amt := amt?.getD .null
        let dig := isDigitStr (jvalStr amt)
        let a : ℚ := if dig then (jvalAmountInt amt : ℚ) else 0
        ([{ proposalId := pid, proposalTitle := some ptitle, proposalText := ptext,
            proposalDate := some pdate, subunit := subunit, subunitAddress := subAddr,
            recipient := rec?.getD .null, amountRaw := a,
            amountOsmo := if dig then a / 1000000 else 0, denom := "token",
            messageType := "wasm_" ++ tt, contractMethod := some tt,
            contractAddress := some contract }], false)
      else ([], false)
    | _ => ([], true)

/-- The `for transfer_type in ['transfer', 'send']` section. -/
def wasmTransferSection (decoded : List (String × JVal))
    (contract pid ptitle ptext pdate subunit subAddr : String) : List Payment × Bool :=
  let (p1, ab1) := wasmTransferOne decoded "transfer" contract pid ptitle ptext pdate subunit subAddr
  if ab1 then (p1, true)
  else
    let (p2, ab2) := wasmTransferOne decoded "send" contract pid ptitle ptext pdate subunit subAddr
    (p1 ++ p2, ab2)

/-- The payment emitted for one coin of the execute call's `funds` array
(kind `wasm_execute_funds`, addressed to the contract). -/
def mkExecFundPayment (decoded : List (String × JVal))
    (contract pid ptitle ptext pdate subunit subAddr : String)
    (f : Coin) (n : Int) (osmo : ℚ) : Payment :=
  { proposalId := pid, proposalTitle := some ptitle, proposalText := ptext,
    proposalDate := some pdate, subunit := subunit, subunitAddress := subAddr,
    recipient := .str contract, amountRaw := (n : ℚ), amountOsmo := osmo,
    denom := f.denom, messageType := "wasm_execute_funds",
    contractMethod := some (extract_method_name decoded), contractAddress := some contract }

/-- `DataProcessor.process_wasm_message`: decode the payload, run the
items loop (payroll instantiation, staking), the transfer/send section,
the complex-contract parse, and finally emit one `wasm_execute_funds`
payment per attached fund. A raised exception at any point makes the
enclosing `except` return the payments accumulated up to it. A non-dict
decode result raises at `.items()` straight away (zero payments). -/
def process_wasm_message (dec : String → Option JVal) (wasm : Option ExecuteMsg)
    (pid ptitle ptext pdate subunit subAddr : String) : List Payment :=
  match wasm with
  | none => []
  | some ex =>
    match decode_wasm_message dec ex.msg with
    | .obj decoded =>
      let (p1, ab1) := wasmItemsLoop ex.funds ex.contract pid ptitle ptext pdate subunit subAddr decoded
      if ab1 then p1
      else
        let (p2, ab2) := wasmTransferSection decoded ex.contract pid ptitle ptext pdate subunit subAddr
        if ab2 then p1 ++ p2
        else
          let p3 := parse_contract_execution decoded ex.contract pid ptext subunit subAddr
          let (p4, _) := fundsPayLoop
            (mkExecFundPayment decoded ex.contract pid ptitle ptext pdate subunit subAddr) ex.funds
          p1 ++ p2 ++ p3 ++ p4
    | _ => []

/-- One dispatched proposal message. The wrapper-key probing of
`extract_payments_from_proposal` (`msg`/`value` unwrapping, then testing
`stargate`/`bank`/`wasm` in that order, else the generic fallback) is
collapsed into constructor choice; each constructor carries the payload the
matching processor receives. -/
inductive Msg where
  | stargate (value : String)
  | bank (send? : Option BankSend)
  | wasm (execute? : Option ExecuteMsg)
  | other (payload : JVal)

/-- The proposal payload after the source's key probing: the object found
under the `proposal` key when that is a dict, else the proposal itself,
with the message list as found under `msgs`/`messages` and already
normalized to a list. -/
structure ProposalBody where
  title : String := ""
  description : String := ""
  msgs : List Msg := []

/-- One proposal as handed to `extract_payments_from_proposal`. `id` is the
result of the `id`/`proposal_id`/`proposalId` probing, and `date` the
result of `_extract_proposal_date` (best-effort: `created_at` date part,
expiration minus seven days, or the current date). -/
structure Proposal where
  id : String := "Unknown"
  body : ProposalBody := {}
  date : String := ""

/-- Dispatch one message to its processor, in the source's priority order
(`stargate`, `bank`, `wasm`, generic fallback). -/
def process_message (b64 : String → Option String) (dec : String → Option JVal)
    (m : Msg) (pid ptitle ptext pdate subunit subAddr : String) : List Payment :=
  match m with
  | .stargate v => process_stargate_message b64 v pid ptitle ptext pdate subunit subAddr
  | .bank s => process_bank_message s pid ptitle ptext pdate subunit subAddr
  | .wasm e => process_wasm_message dec e pid ptitle ptext pdate subunit subAddr
  | .other j => process_other_message j pid ptitle ptext pdate subunit subAddr

/-- `DataProcessor.extract_payments_from_proposal`: the proposal text is
title and description joined by a newline and stripped; every message of
the probed message list is dispatched and the per-message payment lists are
concatenated in order. -/
def extract_payments_from_proposal (b64 : String → Option String) (dec : String → Option JVal)
    (p : Proposal) (subunit subAddr : String) : List Payment :=
  let ptext := (p.body.title ++ "\n" ++ p.body.description).trim
  (p.body.msgs.map fun m =>
    process_message b64 dec m p.id p.body.title ptext p.date subunit subAddr).flatten

/-- One sub-unit's entry of the orchestrator input:
`\x7b'address': …, 'proposals': […], 'error'?: …\x7d`; `error` is `some`
exactly when the `'error'` key is present. -/
structure SubunitData where
  error : Option String := none
  address : String := ""
  proposals : List Proposal := []

/-- The run diagnostics object assembled by `process_all_proposals`:
`subunits` starts empty, plus the two counters. -/
structure Diagnostics where
  subunits : List (String × String) := []
  totalMessagesScanned : Nat := 0
  totalPaymentsExtracted : Nat := 0
deriving Repr, DecidableEq

/-- `DataProcessor.process_all_proposals`, restricted to the payment
accumulation and the diagnostics object (the subsequent DataFrame
enrichment applies the per-row functions modelled separately below).
Sub-units whose dict carries an `'error'` key are skipped via `continue`
before any processing or counting; note that nothing is ever written into
`diagnostics['subunits']`. `processSubunitStep` is one iteration of the
sub-unit loop, accumulating payments and the scanned-message counter. -/
def processSubunitStep (b64 : String → Option String) (dec : String → Option JVal)
    (acc : List Payment × Nat) (nd : String × SubunitData) : List Payment × Nat :=
  if nd.2.error.isSome then acc
  else
    nd.2.proposals.foldl
      (fun acc2 p =>
        (acc2.1 ++ extract_payments_from_proposal b64 dec p nd.1 nd.2.address,
         acc2.2 + p.body.msgs.length))
      acc

/-- See `process_all_proposals`. -/
def process_all_proposals (b64 : String → Option String) (dec : String → Option JVal)
    (input : List (String × SubunitData)) : List Payment × Diagnostics :=
  let step := input.foldl (processSubunitStep b64 dec) ([], 0)
  (step.1,
   { subunits := [], totalMessagesScanned := step.2,
     totalPaymentsExtracted := step.1.length })

/-- One enriched ledger row, carrying the DataFrame columns read by the
per-row functions (`Adjusted Amount`, `Display Symbol`, `Proposal Date`,
`Message Type`, `Payment Type`, `Recipient`). -/
structure Row where
  adjustedAmount : ℚ := 0
  displaySymbol : String := ""
  proposalDate : String := ""
  messageType : String := ""
  paymentType : String := ""
  recipient : String := ""
deriving Repr

/-- One Token Registry entry (`token_data[denom]`), with the source's
`.get('decimals', 0)` default folded into the field default; the registry
interface guarantees `decimals ≥ 0`. -/
structure TokenInfo where
  symbol : Option String := none
  decimals : Nat := 0
deriving Repr

/-- `DataProcessor._adjust_amount`: divide the raw amount by
`10 ** decimals` from the Token Registry lookup on the denom (decimals 0 —
in particular for an unknown denom — leaves the amount unchanged). -/
def adjust_amount (tokenData : List (String × TokenInfo)) (rawAmount : ℚ) (denom : String) : ℚ :=
  let decimals := ((List.lookup denom tokenData).getD {}).decimals
  if 0 < decimals then rawAmount / 10 ^ decimals else rawAmount

/-- `DataProcessor._categorize_transaction`: amount thresholds crossed with
Core Team / external. -/
def categorize_transaction (row : Row) : String :=
  let amount := row.adjustedAmount
  if amount ≥ 10000 then
    if row.paymentType = "Core Team" then "Large Core Team Payment" else "Large External Payment"
  else if amount ≥ 1000 then
    if row.paymentType = "Core Team" then "Medium Core Team Payment" else "Medium External Payment"
  else if amount ≥ 100 then
    if row.paymentType = "Core Team" then "Small Core Team Payment" else "Small External Payment"
  else "Micro Payment"

/-- `DataProcessor._categorize_amount`: the six-tier size bucket. -/
def categorize_amount (row : Row) : String :=
  let amount := row.adjustedAmount
  if amount ≥ 100000 then "Very Large (100K+ OSMO)"
  else if amount ≥ 50000 then "Large (50K-100K OSMO)"
  else if amount ≥ 10000 then "Medium (10K-50K OSMO)"
  else if amount ≥ 1000 then "Small (1K-10K OSMO)"
  else if amount ≥ 100 then "Minor (100-1K OSMO)"
  else "Micro (<100 OSMO)"

/-- The `tags` list built by `DataProcessor._tag_transaction` before
joining: optional message-kind tag, exactly one amount-tier tag, optional
address-shape tag. -/
def tag_list (row : Row) : List String :=
  let amount := row.adjustedAmount
  (if strContains row.messageType "bank" then ["Direct Transfer"]
   else if strContains row.messageType "stargate" then ["Protocol Operation"]
   else if strContains row.messageType "wasm" then ["Smart Contract"]
   else []) ++
  [if amount ≥ 50000 then "Major Expenditure"
   else if amount ≥ 10000 then "Significant Payment"
   else if amount ≥ 1000 then "Standard Payment"
   else if amount ≥ 100 then "Minor Payment"
   else "Micro Payment"] ++
  (if row.recipient.startsWith "osmo1" then
     if row.recipient.length > 50 then ["Contract Address"] else ["Wallet Address"]
   else [])

/-- `DataProcessor._tag_transaction`: the `' | '`-joined tag list, with the
sentinel `"Standard"` for an empty list. -/
def tag_transaction (row : Row) : String :=
  let tags := tag_list row
  if !tags.isEmpty then String.intercalate " | " tags else "Standard"

/-- The five amount-tier tag strings of `_tag_transaction`. -/
def amountTierTags : List String :=
  ["Major Expenditure", "Significant Payment", "Standard Payment", "Minor Payment",
   "Micro Payment"]

/-- The fixed display order of the six amount categories
(`category_order` in `ReportGenerator.generate_amount_range_analysis`,
`src/DaoLedger/utils/report_generator.py`). -/
def amountCategoryOrder : List String :=
  ["Very Large (100K+ OSMO)", "Large (50K-100K OSMO)", "Medium (10K-50K OSMO)",
   "Small (1K-10K OSMO)", "Minor (100-1K OSMO)", "Micro (<100 OSMO)"]

/-- The seven possible `_categorize_transaction` labels. -/
def txCategories : List String :=
  ["Large Core Team Payment", "Large External Payment", "Medium Core Team Payment",
   "Medium External Payment", "Small Core Team Payment", "Small External Payment",
   "Micro Payment"]

/-- Gregorian leap year. -/
def isLeapYear (y : Int) : Bool :=
  (y % 4 = 0 && y % 100 ≠ 0) || y % 400 = 0

/-- Days in a month, as validated by `datetime.strptime`. -/
def daysInMonth (y m : Int) : Int :=
  if m = 2 then (if isLeapYear y then 29 else 28)
  else if m = 4 ∨ m = 6 ∨ m = 9 ∨ m = 11 then 30
  else 31

/-- Python `s.split(sep)` for a single-character separator, over the char
list (`''.split` conventions: an empty string yields one empty group). -/
def splitChars (sep : Char) : List Char → List (List Char)
  | [] => [[]]
  | c :: cs =>
    if c = sep then [] :: splitChars sep cs
    else
      match splitChars sep cs with
      | [] => [[c]]
      | g :: gs => (c :: g) :: gs

/-- `datetime.strptime(s, '%Y-%m-%d')`: three dash-separated digit groups
with a calendar-valid month and day; `none` models a raised `ValueError`. -/
def parseDateFields (s : String) : Option (Int × Int × Int) :=
  match (splitChars (Char.ofNat 45) s.toList).map String.mk with
  | [ys, ms, ds] =>
    if isDigitStr ys && isDigitStr ms && isDigitStr ds then
      let y : Int := (digitsToNat ys.toList : Int)
      let m : Int := (digitsToNat ms.toList : Int)
      let d : Int := (digitsToNat ds.toList : Int)
      if 1 ≤ m && m ≤ 12 && 1 ≤ d && d ≤ daysInMonth y m then some (y, m, d) else none
    else none
  | _ => none

/-- Day serial number of a civil date (days since 1970-01-01); the integer
`.days` of a `timedelta` between two parsed dates equals the difference of
their serial numbers. -/
def daysFromCivil (y m d : Int) : Int :=
  let y' := if m ≤ 2 then y - 1 else y
  let era := (if y' ≥ 0 then y' else y' - 399) / 400
  let yoe := y' - era * 400
  let mp := (m + 9) % 12
  let doy := (153 * mp + 2) / 5 + d - 1
  let doe := yoe * 365 + yoe / 4 - yoe / 100 + doy
  era * 146097 + doe - 719468

/-- Parse an ISO date string to its day serial number. -/
def parseDateDays (s : String) : Option Int :=
  (parseDateFields s).map fun x => daysFromCivil x.1 x.2.1 x.2.2

/-- Lexicographic `≤` on character lists by code point, Python's string
comparison. -/
def charsLe : List Char → List Char → Bool
  | [], _ => true
  | _ :: _, [] => false
  | a :: as, b :: bs => if a < b then true else if b < a then false else charsLe as bs

/-- Python `a <= b` on strings. -/
def strLe (a b : String) : Bool :=
  charsLe a.toList b.toList

/-- Insert into a `strLe`-sorted list of strings. -/
def insertSorted (x : String) : List String → List String
  | [] => [x]
  | y :: ys => if strLe x y then x :: y :: ys else y :: insertSorted x ys

/-- `sorted(...)` on strings: ascending code-point (lexicographic) order,
as Python compares `YYYY-MM-DD` keys. -/
def sortStrs (l : List String) : List String :=
  l.foldr insertSorted []

/-- `abs((strptime(x) - target).days)`, the key function of the
nearest-date `min` (only evaluated on parseable dates). -/
def dateDist (t : Int) (x : String) : Int :=
  |(parseDateDays x).getD 0 - t|

/-- Python `min(d :: ds, key=dateDist t)`: the first element attaining the
minimal key, so ties go to the earlier position. -/
def pyMinByDist (t : Int) (d : String) (ds : List String) : String :=
  ds.foldl (fun best x => if dateDist t x < dateDist t best then x else best) d

/-- Outcome of trying one candidate symbol that is present in the Price
Table: a returned value, fall-through to the next candidate (empty date
dict), or a raised exception (caught at the function boundary → 0.0). -/
inductive CandOutcome where
  | price (v : ℚ)
  | skip
  | err

/-- The per-symbol block of `_calculate_usd_value`: exact date match first,
else nearest available date by absolute day difference over the sorted date
keys (an unparseable proposal date or date key raises). -/
def resolveFromPrices (prices : List (String × ℚ)) (pdate : String) (amt : ℚ) : CandOutcome :=
  match List.lookup pdate prices with
  | some p => .price (amt * p)
  | none =>
    match sortStrs (prices.map Prod.fst) with
    | [] => .skip
    | d :: ds =>
      match parseDateDays pdate with
      | none => .err
      | some t =>
        if (d :: ds).all (fun x => (parseDateDays x).isSome) then
          .price (amt * ((List.lookup (pyMinByDist t d ds) prices).getD 0))
        else .err

/-- ASCII lower-casing of one character (`str.lower()` on the ASCII token
symbols this code handles). -/
def pyLowerChar (c : Char) : Char :=
  if Char.ofNat 65 ≤ c && c ≤ Char.ofNat 90 then Char.ofNat (c.toNat + 32) else c

/-- ASCII upper-casing of one character. -/
def pyUpperChar (c : Char) : Char :=
  if Char.ofNat 97 ≤ c && c ≤ Char.ofNat 122 then Char.ofNat (c.toNat - 32) else c

/-- Python `s.lower()` (ASCII). -/
def pyLower (s : String) : String :=
  String.mk (s.toList.map pyLowerChar)

/-- Python `s.upper()` (ASCII). -/
def pyUpper (s : String) : String :=
  String.mk (s.toList.map pyUpperChar)

/-- The alias map applied to each candidate
(`alias_map.get(key.lower(), key)`). -/
def aliasLookup (k : String) : String :=
  let kl := pyLower k
  if kl = "uosmo" then "OSMO"
  else if kl = "osmo" then "OSMO"
  else if kl = "scrt" then "SCRT"
  else k

/-- ASCII letters and digits, the `[^A-Za-z0-9]` complement. -/
def isAsciiAlnum (c : Char) : Bool :=
  (Char.ofNat 97 ≤ c && c ≤ Char.ofNat 122) ||
  (Char.ofNat 65 ≤ c && c ≤ Char.ofNat 90) ||
  (Char.ofNat 48 ≤ c && c ≤ Char.ofNat 57)

/-- The candidate symbol keys tried by `_calculate_usd_value`: the symbol
as-is, uppercased, lowercased; the last `/`-segment (and its uppercase)
when the symbol is path-like; and the alphanumeric-stripped variant (and
its uppercase) when non-empty. -/
def mkCandidates (sym : String) : List String :=
  [sym, pyUpper sym, pyLower sym] ++
  (if sym.toList.contains (Char.ofNat 47) then
     let last := (((splitChars (Char.ofNat 47) sym.toList).map String.mk).getLastD "")
     [last, pyUpper last]
   else []) ++
  (let clean := String.mk (sym.toList.filter isAsciiAlnum)
   if clean ≠ "" then [clean, pyUpper clean] else [])

/-- The in-memory Price Table: symbol (uppercased) → date → unit price. -/
abbrev Pricing := List (String × List (String × ℚ))

/-- The candidate loop of `_calculate_usd_value`: skip empty candidates,
alias-map and uppercase each, and resolve against the first one present in
the Price Table; `some v` is a returned value (a raised exception maps to
the caught value `0`), `none` falls through to the remote fallback. -/
def candLoop (pricing : Pricing) (pdate : String) (amt : ℚ) : List String → Option ℚ
  | [] => none
  | k :: ks =>
    if k = "" then candLoop pricing pdate amt ks
    else
      match List.lookup (pyUpper (aliasLookup k)) pricing with
      | none => candLoop pricing pdate amt ks
      | some prices =>
        match resolveFromPrices prices pdate amt with
        | .price v => some v
        | .skip => candLoop pricing pdate amt ks
        | .err => some 0

/-- The static symbol → CoinGecko id map of the remote fallback. -/
def cgMap (sym : String) : Option String :=
  if sym = "SCRT" then some "secret"
  else if sym = "OSMO" then some "osmosis"
  else if sym = "PAGE" then some "page"
  else none

/-- `DataProcessor._calculate_usd_value`: preconditions (truthy adjusted
amount, symbol and date), candidate loop over the Price Table, then the
remote single-point fallback (`remote` models the memoized CoinGecko call:
`none` for a missing price, a failed request, or a cached miss); every
failure path returns `0.0`. -/
def calculate_usd_value (pricing : Pricing) (remote : String → String → Option ℚ)
    (row : Row) : ℚ :=
  if row.adjustedAmount = 0 ∨ row.displaySymbol = "" ∨ row.proposalDate = "" then 0
  else
    match candLoop pricing row.proposalDate row.adjustedAmount (mkCandidates row.displaySymbol) with
    | some v => v
    | none =>
      match cgMap (pyUpper row.displaySymbol) with
      | none => 0
      | some cgId =>
        match remote cgId row.proposalDate with
        | some p => row.adjustedAmount * p
        | none => 0

/-- The semantic amount intervals of the six buckets, written from the
spec's tier table (`Very Large (100K+)` down to `Micro (<100)`) to compare
against the `_categorize_amount` if-chain: bucket `i` covers the half-open
interval between consecutive thresholds. -/
def amountBucketSpec (i : Fin 6) (amt : ℚ) : Prop :=
  if i = 0 then 100000 ≤ amt
  else if i = 1 then 50000 ≤ amt ∧ amt < 100000
  else if i = 2 then 10000 ≤ amt ∧ amt < 50000
  else if i = 3 then 1000 ≤ amt ∧ amt < 10000
  else if i = 4 then 100 ≤ amt ∧ amt < 1000
  else amt < 100

/-- Index of the `_categorize_amount` branch taken for an amount (0 =
`Very Large` … 5 = `Micro`), mirroring the source's threshold chain. -/
def bucketIdx (amt : ℚ) : Fin 6 :=
  if amt ≥ 100000 then 0
  else if amt ≥ 50000 then 1
  else if amt ≥ 10000 then 2
  else if amt ≥ 1000 then 3
  else if amt ≥ 100 then 4
  else 5

/-! ## Helper lemmas -/

/-- The candidate loop finds nothing in an empty Price Table. -/
theorem candLoop_empty_table (pdate : String) (amt : ℚ) :
    ∀ ks : List String, candLoop [] pdate amt ks = none := by
  intro ks
  induction ks with
  | nil => rfl
  | cons k ks ih =>
    unfold candLoop
    split_ifs <;> exact ih

/-- Python `min` over a non-empty list returns an element of the list. -/
theorem foldlMin_mem (t : Int) : ∀ (ds : List String) (d : String),
    ds.foldl (fun best x => if dateDist t x < dateDist t best then x else best) d ∈ d :: ds := by
  intro ds
  induction ds with
  | nil => intro d; simp
  | cons x ds ih =>
    intro d
    rw [List.foldl_cons]
    have h := ih (if dateDist t x < dateDist t d then x else d)
    rw [List.mem_cons] at h
    rcases h with h | h
    · rw [h]
      split_ifs <;> simp
    · simp [h]

/-- Python `min` over a non-empty list minimises the key. -/
theorem foldlMin_le (t : Int) : ∀ (ds : List String) (d : String) (x : String),
    x ∈ d :: ds →
    dateDist t (ds.foldl (fun best y => if dateDist t y < dateDist t best then y else best) d)
      ≤ dateDist t x := by
  intro ds
  induction ds with
  | nil =>
    intro d x hx
    simp at hx
    subst hx
    simp
  | cons y ds ih =>
    intro d x hx
    rw [List.foldl_cons]
    rw [List.mem_cons] at hx
    rcases hx with rfl | hx
    · by_cases hc : dateDist t y < dateDist t x
      · rw [if_pos hc]
        have h1 := ih y y (List.mem_cons_self y ds)
        calc dateDist t (ds.foldl _ y) ≤ dateDist t y := h1
          _ ≤ dateDist t x := le_of_lt hc
      · rw [if_neg hc]
        exact ih x x (List.mem_cons_self x ds)
    · rw [List.mem_cons] at hx
      rcases hx with rfl | hx
      · by_cases hc : dateDist t x < dateDist t d
        · rw [if_pos hc]
          exact ih x x (List.mem_cons_self x ds)
        · rw [if_neg hc]
          push_neg at hc
          calc dateDist t (ds.foldl _ d) ≤ dateDist t d := ih d d (List.mem_cons_self d ds)
            _ ≤ dateDist t x := hc
      · by_cases hc : dateDist t y < dateDist t d
        · rw [if_pos hc]
          exact ih y x (List.mem_cons_of_mem y hx)
        · rw [if_neg hc]
          exact ih d x (List.mem_cons_of_mem d hx)

/-- Insertion keeps the elements (up to permutation). -/
theorem insertSorted_perm (x : String) : ∀ l : List String,
    List.Perm (insertSorted x l) (x :: l) := by
  intro l
  induction l with
  | nil => exact List.Perm.refl _
  | cons y ys ih =>
    unfold insertSorted
    split_ifs
    · exact List.Perm.refl _
    · exact (List.Perm.cons y ih).trans (List.Perm.swap x y ys)

/-- `sorted(...)` permutes its input. -/
theorem sortStrs_perm : ∀ l : List String, List.Perm (sortStrs l) l := by
  intro l
  induction l with
  | nil => exact List.Perm.refl _
  | cons x xs ih =>
    exact (insertSorted_perm x (sortStrs xs)).trans (List.Perm.cons x ih)

/-- If the very first candidate key (the display symbol itself, alias-mapped
and upper-cased) is present in the Price Table and its per-symbol block
returns a price, `_calculate_usd_value` returns that value. -/
theorem calc_first_candidate (pricing : Pricing) (remote : String → String → Option ℚ)
    (row : Row) (prices : List (String × ℚ)) (v : ℚ)
    (h1 : row.adjustedAmount ≠ 0) (h2 : row.displaySymbol ≠ "") (h3 : row.proposalDate ≠ "")
    (h4 : List.lookup (pyUpper (aliasLookup row.displaySymbol)) pricing = some prices)
    (h5 : resolveFromPrices prices row.proposalDate row.adjustedAmount = .price v) :
    calculate_usd_value pricing remote row = v := by
  unfold calculate_usd_value
  rw [if_neg (by push_neg; exact ⟨h1, h2, h3⟩)]
  unfold mkCandidates
  simp only [List.cons_append]
  unfold candLoop
  rw [if_neg h2, h4]
  dsimp only
  rw [h5]

/-- When every coin amount parses, the funds loop emits exactly one payment
per coin, in order, without raising. -/
theorem fundsPayLoop_map (mk : Coin → Int → ℚ → Payment) :
    ∀ (fs : List Coin), (∀ f ∈ fs, (pyInt? f.amount).isSome) →
    fundsPayLoop mk fs
      = (fs.map fun f => mk f ((pyInt? f.amount).getD 0)
          (if f.denom = "uosmo" then (((pyInt? f.amount).getD 0 : Int) : ℚ) / 1000000
           else (((pyInt? f.amount).getD 0 : Int) : ℚ)), false) := by
  intro fs
  induction fs with
  | nil => intro _; rfl
  | cons f fs ih =>
    intro h
    have hf := h f (List.mem_cons_self f fs)
    obtain ⟨n, hn⟩ := Option.isSome_iff_exists.mp hf
    unfold fundsPayLoop
    rw [hn]
    dsimp only
    rw [ih (fun g hg => h g (List.mem_cons_of_mem f hg))]
    simp [hn]

/-- The branch of `_categorize_amount` taken for an amount satisfies its
bucket interval. -/
theorem amountBucketSpec_bucketIdx (amt : ℚ) : amountBucketSpec (bucketIdx amt) amt := by
  unfold bucketIdx
  split_ifs with h1 h2 h3 h4 h5 <;> simp [amountBucketSpec] <;>
    first | linarith | (constructor <;> linarith)

/-- The six bucket intervals are pairwise disjoint. -/
theorem amountBucketSpec_disjoint (i j : Fin 6) (amt : ℚ)
    (hi : amountBucketSpec i amt) (hj : amountBucketSpec j amt) : i = j := by
  fin_cases i <;> fin_cases j <;> simp_all [amountBucketSpec] <;> try linarith

/-! ## Claims -/

/-- **C1**, counterexample. The claim says `_calculate_usd_value` yields an
unresolved result distinguishable from a legitimate `$0` value and never
collapses "no data" into the number zero. In the code both cases are the
same number `0.0`: a row with a missing display symbol and a non-zero
amount (no data) evaluates to `0`, exactly the value of a legitimately
zero-amount transfer whose symbol and date are priced in the table. -/
theorem C1_unresolved_equals_zero_cex :
    calculate_usd_value [("OSMO", [("2024-01-02", 3)])] (fun _ _ => none)
      { adjustedAmount := 5, displaySymbol := "", proposalDate := "2024-01-02" } = 0 ∧
    calculate_usd_value [("OSMO", [("2024-01-02", 3)])] (fun _ _ => none)
      { adjustedAmount := 0, displaySymbol := "OSMO", proposalDate := "2024-01-02" } = 0 := by
  constructor <;> decide

/-- **C1**, amended: whenever `adjusted_amount`, `display_symbol` or
`proposal_date` is absent/empty, or no price resolves from the Price Table
or the remote fallback, `_calculate_usd_value` returns the number `0.0` —
the unresolved case is encoded as `0.0` and is not distinguishable from a
legitimate `$0` value. With an empty table and a failing remote lookup
every row whatsoever is valued `0`. -/
theorem C1_unresolved_returns_zero_amended (row : Row) :
    calculate_usd_value [] (fun _ _ => none) row = 0 := by
  unfold calculate_usd_value
  split_ifs with h
  · rfl
  · rw [candLoop_empty_table]
    cases cgMap (pyUpper row.displaySymbol) <;> rfl

/-- **C2**, counterexample. The claim says every extractor path excludes
self-payments. The bank-send path performs no such comparison: a `send`
whose `to_address` equals the sub-unit's own address (`"osmo1sub"` both as
recipient and as `subunit_address` here) produces a payment whose recipient
is the sub-unit address itself. -/
theorem C2_bank_self_payment_cex :
    (process_bank_message
        (some { to_address := "osmo1sub", amount := [{ denom := "uosmo", amount := "100" }] })
        "1" "t" "txt" "2024-01-01" "Ops" "osmo1sub").map Payment.recipient
      = [JVal.str "osmo1sub"] := by
  rfl

/-- **C2**, amended: self-payment exclusion holds on the stargate and
other/fallback extractor paths, which filter the scanned addresses against
the sub-unit address; the bank-send and wasm paths perform no such
filtering. -/
theorem C2_self_exclusion_amended :
    (∀ (b64 : String → Option String) (value pid ptitle ptext pdate subunit subAddr : String)
        (p : Payment),
        p ∈ process_stargate_message b64 value pid ptitle ptext pdate subunit subAddr →
        p.recipient ≠ .str subAddr) ∧
    (∀ (msg : JVal) (pid ptitle ptext pdate subunit subAddr : String) (p : Payment),
        p ∈ process_other_message msg pid ptitle ptext pdate subunit subAddr →
        p.recipient ≠ .str subAddr) := by
  constructor
  · intro b64 value pid ptitle ptext pdate subunit subAddr p hp
    unfold process_stargate_message at hp
    split at hp
    · simp at hp
    · cases hb : b64 value with
      | none => rw [hb] at hp; simp at hp
      | some decoded =>
        rw [hb] at hp
        dsimp only at hp
        split at hp
        · simp only [List.mem_map] at hp
          obtain ⟨addr, ha, rfl⟩ := hp
          simp only [List.mem_filter, decide_eq_true_eq] at ha
          intro hcontra
          simp only [JVal.str.injEq] at hcontra
          exact ha.2 hcontra
        · simp at hp
  · intro msg pid ptitle ptext pdate subunit subAddr p hp
    unfold process_other_message at hp
    dsimp only at hp
    split at hp
    · simp only [List.mem_map] at hp
      obtain ⟨addr, ha, rfl⟩ := hp
      simp only [List.mem_filter, decide_eq_true_eq] at ha
      intro hcontra
      simp only [JVal.str.injEq] at hcontra
      exact ha.2 hcontra
    · simp at hp

/-- The default head of a non-empty list is an element of it. -/
theorem headD_mem_of_length_pos {α : Type} (d : α) :
    ∀ l : List α, 0 < l.length → l.headD d ∈ l
  | [], h => absurd h (by simp)
  | a :: as, _ => List.mem_cons_self a as

/-- Witness for **C2**: the stargate extractor applied to a decoded blob
holding one address different from the sub-unit address emits a payment
whose recipient differs from `"osmo1other"`. -/
theorem C2_self_exclusion_amended_witness :
    ((process_stargate_message
        (fun _ => some "osmo1abcdefghijklmnopqrstuvwxyz0123456789abc 500uosmo")
        "QUFB" "1" "t" "x" "d" "Ops" "osmo1other").headD {}).recipient
      ≠ JVal.str "osmo1other" :=
  C2_self_exclusion_amended.1
    (fun _ => some "osmo1abcdefghijklmnopqrstuvwxyz0123456789abc 500uosmo")
    "QUFB" "1" "t" "x" "d" "Ops" "osmo1other" _
    (headD_mem_of_length_pos {} _ (by decide))

/-- **C6**, counterexample. The claim says an errored sub-unit is skipped
but still appears in Diagnostics with its error string. In the code the
`subunits` map of the diagnostics object is initialised empty and never
written: for an input consisting of one sub-unit carrying the error
`"boom"` (and one bank-send proposal that is duly skipped), the run returns
no payments and a diagnostics object whose `subunits` map is empty — the
error string appears nowhere. -/
theorem C6_error_subunit_diagnostics_cex :
    process_all_proposals (fun _ => none) (fun _ => none)
      [("A", { error := some "boom", address := "osmo1a",
               proposals := [{ id := "1",
                               body := { msgs := [.bank (some { to_address := "osmo1x",
                                                                amount := [{ denom := "uosmo",
                                                                             amount := "5" }] })] },
                               date := "2024-01-01" }] })]
      = ([], { subunits := [], totalMessagesScanned := 0, totalPaymentsExtracted := 0 }) := by
  rfl

/-- **C6**, amended: sub-units carrying a fetch error are skipped entirely
(the run computes exactly as if they were absent from the input), and they
do not appear in the diagnostics: the `subunits` map of the diagnostics
object is always empty. -/
theorem C6_error_subunit_skipped_amended (b64 : String → Option String)
    (dec : String → Option JVal) (input : List (String × SubunitData)) :
    process_all_proposals b64 dec input
      = process_all_proposals b64 dec (input.filter fun nd => nd.2.error.isNone) ∧
    (process_all_proposals b64 dec input).2.subunits = [] := by
  refine ⟨?_, rfl⟩
  unfold process_all_proposals
  have key : ∀ (l : List (String × SubunitData)) (init : List Payment × Nat),
      l.foldl (processSubunitStep b64 dec) init
        = (l.filter fun nd => nd.2.error.isNone).foldl (processSubunitStep b64 dec) init := by
    intro l
    induction l with
    | nil => intro init; rfl
    | cons nd l ih =>
      intro init
      rw [List.foldl_cons, List.filter_cons]
      by_cases h : nd.2.error.isSome
      · have hn : nd.2.error.isNone = false := by
          cases hh : nd.2.error <;> simp_all
        rw [hn]
        have hstep : processSubunitStep b64 dec init nd = init := by
          unfold processSubunitStep
          rw [if_pos h]
        rw [hstep]
        exact ih init
      · have hn : nd.2.error.isNone = true := by
          cases hh : nd.2.error <;> simp_all
        rw [hn]
        simp only [if_true]
        rw [List.foldl_cons]
        exact ih _
  rw [key]

/-- **C7**: for every token-data table, raw amount and denom,
`_adjust_amount` returns `raw_amount / 10 ^ decimals` where `decimals` is
the Token Registry entry's value for that denom, and an unknown denom
leaves the amount unscaled (decimals 0). -/
theorem C7_scaling_correctness (tokenData : List (String × TokenInfo)) (rawAmount : ℚ)
    (denom : String) :
    adjust_amount tokenData rawAmount denom
      = rawAmount / 10 ^ ((List.lookup denom tokenData).getD {}).decimals ∧
    (List.lookup denom tokenData = none → adjust_amount tokenData rawAmount denom = rawAmount) := by
  constructor
  · unfold adjust_amount
    dsimp only
    split_ifs with h
    · rfl
    · have h0 : ((List.lookup denom tokenData).getD {}).decimals = 0 := by omega
      rw [h0]
      norm_num
  · intro h
    unfold adjust_amount
    rw [h]
    rfl

/-- Witness for **C7**: a `uosmo` registry entry with 6 decimals scales
`5000000` to `5000000 / 10 ^ 6`, and a denom absent from the registry is
left unscaled. -/
theorem C7_scaling_correctness_witness :
    adjust_amount [("uosmo", { decimals := 6 })] 5000000 "uosmo" = 5000000 / 10 ^ 6 ∧
    adjust_amount [("uosmo", { decimals := 6 })] 7 "zzz" = 7 :=
  ⟨by
    have h := (C7_scaling_correctness [("uosmo", { decimals := 6 })] 5000000 "uosmo").1
    rw [h]
    norm_num [List.lookup],
   (C7_scaling_correctness [("uosmo", { decimals := 6 })] 7 "zzz").2 rfl⟩

/-- **C9**: a row whose adjusted amount is `0` (or whose display symbol or
proposal date is empty) is valued `0.0` immediately, for every Price Table
and every remote oracle — the table and the fallback are never consulted,
so a genuinely zero-amount transfer is valued `0.0` even when its symbol
and date are priced. -/
theorem C9_zero_amount_short_circuit (pricing : Pricing)
    (remote : String → String → Option ℚ) (row : Row)
    (h : row.adjustedAmount = 0 ∨ row.displaySymbol = "" ∨ row.proposalDate = "") :
    calculate_usd_value pricing remote row = 0 := by
  unfold calculate_usd_value
  rw [if_pos h]

/-- Witness for **C9**: a zero-amount row whose symbol and date are present
in the Price Table is still valued `0`. -/
theorem C9_zero_amount_short_circuit_witness :
    calculate_usd_value [("OSMO", [("2024-01-05", 3)])] (fun _ _ => none)
      { adjustedAmount := 0, displaySymbol := "OSMO", proposalDate := "2024-01-05" } = 0 :=
  C9_zero_amount_short_circuit _ _ _ (Or.inl rfl)

/-- **C10**: `_tag_transaction` always appends exactly one amount-tier tag,
so the tag list contains exactly one of the five tier tags, and the joined
tag string is never empty and never the sentinel `"Standard"`. -/
theorem C10_tag_amount_tier (row : Row) :
    ((tag_list row).countP (fun t => amountTierTags.contains t) = 1) ∧
    tag_transaction row ≠ "" ∧ tag_transaction row ≠ "Standard" := by
  unfold tag_transaction tag_list
  dsimp only
  split_ifs <;> first | decide | (exfalso; simp_all)


/-- **C3**: a wasm `contract_execute` message whose decoded payload is a
recognized `transfer` with a (truthy) recipient and a digit amount, and
whose `funds` array is non-empty (with parseable coin amounts), emits the
decoded-transfer payment and, additionally, one `wasm_execute_funds`
payment per funds entry addressed to the contract; the funds payments form
an unmerged suffix of the output and the output has at least `1 + |funds|`
records. -/
theorem C3_transfer_and_funds_separate (dec : String → Option JVal)
    (contract rec amt : String) (funds : List Coin)
    (pid ptitle ptext pdate subunit subAddr : String)
    (hrec : rec ≠ "") (hamt : isDigitStr amt = true)
    (_hfunds : funds ≠ [])
    (hparse : ∀ f ∈ funds, (pyInt? f.amount).isSome) :
    ({ proposalId := pid, proposalTitle := some ptitle, proposalText := ptext,
       proposalDate := some pdate, subunit := subunit, subunitAddress := subAddr,
       recipient := .str rec, amountRaw := (((pyInt? amt).getD 0 : Int) : ℚ),
       amountOsmo := (((pyInt? amt).getD 0 : Int) : ℚ) / 1000000, denom := "token",
       messageType := "wasm_transfer", contractMethod := some "transfer",
       contractAddress := some contract } : Payment) ∈
      process_wasm_message dec
        (some { contract := contract,
                msg := .obj [("transfer", .obj [("recipient", .str rec), ("amount", .str amt)])],
                funds := funds }) pid ptitle ptext pdate subunit subAddr ∧
    List.IsSuffix
      (funds.map fun f =>
        mkExecFundPayment [("transfer", .obj [("recipient", .str rec), ("amount", .str amt)])]
          contract pid ptitle ptext pdate subunit subAddr f ((pyInt? f.amount).getD 0)
          (if f.denom = "uosmo" then (((pyInt? f.amount).getD 0 : Int) : ℚ) / 1000000
           else (((pyInt? f.amount).getD 0 : Int) : ℚ)))
      (process_wasm_message dec
        (some { contract := contract,
                msg := .obj [("transfer", .obj [("recipient", .str rec), ("amount", .str amt)])],
                funds := funds }) pid ptitle ptext pdate subunit subAddr) ∧
    1 + funds.length ≤
      (process_wasm_message dec
        (some { contract := contract,
                msg := .obj [("transfer", .obj [("recipient", .str rec), ("amount", .str amt)])],
                funds := funds }) pid ptitle ptext pdate subunit subAddr).length := by
  have hamtne : amt ≠ "" := by
    unfold isDigitStr at hamt
    rw [Bool.and_eq_true] at hamt
    exact of_decide_eq_true hamt.1
  have hitems : wasmItemsLoop funds contract pid ptitle ptext pdate subunit subAddr
      [("transfer", .obj [("recipient", .str rec), ("amount", .str amt)])] = ([], false) := by
    simp [wasmItemsLoop, wasmEntry]
  have htrans : wasmTransferSection
      [("transfer", .obj [("recipient", .str rec), ("amount", .str amt)])]
      contract pid ptitle ptext pdate subunit subAddr
      = ([{ proposalId := pid, proposalTitle := some ptitle, proposalText := ptext,
            proposalDate := some pdate, subunit := subunit, subunitAddress := subAddr,
            recipient := .str rec, amountRaw := (((pyInt? amt).getD 0 : Int) : ℚ),
            amountOsmo := (((pyInt? amt).getD 0 : Int) : ℚ) / 1000000, denom := "token",
            messageType := "wasm_transfer", contractMethod := some "transfer",
            contractAddress := some contract }], false) := by
    simp [wasmTransferSection, wasmTransferOne, List.lookup, pyTruthy, jvalStr,
      jvalAmountInt, hrec, hamtne, hamt]
  have hout : process_wasm_message dec
        (some { contract := contract,
                msg := .obj [("transfer", .obj [("recipient", .str rec), ("amount", .str amt)])],
                funds := funds }) pid ptitle ptext pdate subunit subAddr
      = [] ++
        [{ proposalId := pid, proposalTitle := some ptitle, proposalText := ptext,
           proposalDate := some pdate, subunit := subunit, subunitAddress := subAddr,
           recipient := .str rec, amountRaw := (((pyInt? amt).getD 0 : Int) : ℚ),
           amountOsmo := (((pyInt? amt).getD 0 : Int) : ℚ) / 1000000, denom := "token",
           messageType := "wasm_transfer", contractMethod := some "transfer",
           contractAddress := some contract }] ++
        parse_contract_execution [("transfer", .obj [("recipient", .str rec), ("amount", .str amt)])]
          contract pid ptext subunit subAddr ++
        (funds.map fun f =>
          mkExecFundPayment [("transfer", .obj [("recipient", .str rec), ("amount", .str amt)])]
            contract pid ptitle ptext pdate subunit subAddr f ((pyInt? f.amount).getD 0)
            (if f.denom = "uosmo" then (((pyInt? f.amount).getD 0 : Int) : ℚ) / 1000000
             else (((pyInt? f.amount).getD 0 : Int) : ℚ))) := by
    simp only [process_wasm_message, decode_wasm_message]
    rw [hitems, htrans, fundsPayLoop_map _ funds hparse]
    simp
  refine ⟨?_, ?_, ?_⟩
  · rw [hout]
    simp
  · rw [hout]
    exact ⟨_, rfl⟩
  · rw [hout]
    simp
    omega

/-- Witness for **C3**: transfer of `100` to `alice` plus one `50 uosmo`
fund on contract `c1` yields the transfer payment among the output records
and the single funds payment as suffix, with at least two records. -/
theorem C3_transfer_and_funds_separate_witness :
    ({ proposalId := "1", proposalTitle := some "t", proposalText := "x",
       proposalDate := some "d", subunit := "Ops", subunitAddress := "osmo1sub",
       recipient := .str "alice", amountRaw := (((pyInt? "100").getD 0 : Int) : ℚ),
       amountOsmo := (((pyInt? "100").getD 0 : Int) : ℚ) / 1000000, denom := "token",
       messageType := "wasm_transfer", contractMethod := some "transfer",
       contractAddress := some "c1" } : Payment) ∈
      process_wasm_message (fun _ => none)
        (some { contract := "c1",
                msg := .obj [("transfer", .obj [("recipient", .str "alice"), ("amount", .str "100")])],
                funds := [{ denom := "uosmo", amount := "50" }] })
        "1" "t" "x" "d" "Ops" "osmo1sub" ∧
    List.IsSuffix
      ([{ denom := "uosmo", amount := "50" }].map fun f =>
        mkExecFundPayment [("transfer", .obj [("recipient", .str "alice"), ("amount", .str "100")])]
          "c1" "1" "t" "x" "d" "Ops" "osmo1sub" f ((pyInt? f.amount).getD 0)
          (if f.denom = "uosmo" then (((pyInt? f.amount).getD 0 : Int) : ℚ) / 1000000
           else (((pyInt? f.amount).getD 0 : Int) : ℚ)))
      (process_wasm_message (fun _ => none)
        (some { contract := "c1",
                msg := .obj [("transfer", .obj [("recipient", .str "alice"), ("amount", .str "100")])],
                funds := [{ denom := "uosmo", amount := "50" }] })
        "1" "t" "x" "d" "Ops" "osmo1sub") ∧
    1 + ([{ denom := "uosmo", amount := "50" }] : List Coin).length ≤
      (process_wasm_message (fun _ => none)
        (some { contract := "c1",
                msg := .obj [("transfer", .obj [("recipient", .str "alice"), ("amount", .str "100")])],
                funds := [{ denom := "uosmo", amount := "50" }] })
        "1" "t" "x" "d" "Ops" "osmo1sub").length :=
  C3_transfer_and_funds_separate (fun _ => none) "c1" "alice" "100"
    [{ denom := "uosmo", amount := "50" }] "1" "t" "x" "d" "Ops" "osmo1sub"
    (by decide) (by decide) (by decide) (by decide)


/-- **C4**: when the first candidate symbol key (alias-mapped, uppercased)
is present in the Price Table, the resolver (i) returns
`adjusted_amount * price` for an exact proposal-date match; (ii) otherwise
returns the price of the available date minimising the absolute day
difference (the chosen date is one of the symbol's dates and its distance
is minimal); (iii) for two available dates tied in absolute day difference,
it deterministically picks the chronologically earlier one (for any
`d1 < d2`, e.g. prices on `2024-01-01` and `2024-01-03` with proposal date
`2024-01-02`). -/
theorem C4_exact_then_nearest_date (pricing : Pricing)
    (remote : String → String → Option ℚ) (row : Row) (prices : List (String × ℚ))
    (h1 : row.adjustedAmount ≠ 0) (h2 : row.displaySymbol ≠ "") (h3 : row.proposalDate ≠ "")
    (h4 : List.lookup (pyUpper (aliasLookup row.displaySymbol)) pricing = some prices) :
    (∀ p, List.lookup row.proposalDate prices = some p →
        calculate_usd_value pricing remote row = row.adjustedAmount * p) ∧
    (List.lookup row.proposalDate prices = none →
      ∀ d ds t, sortStrs (prices.map Prod.fst) = d :: ds →
        parseDateDays row.proposalDate = some t →
        (∀ x ∈ d :: ds, (parseDateDays x).isSome) →
        calculate_usd_value pricing remote row
          = row.adjustedAmount * ((List.lookup (pyMinByDist t d ds) prices).getD 0) ∧
        pyMinByDist t d ds ∈ prices.map Prod.fst ∧
        (∀ x ∈ prices.map Prod.fst, dateDist t (pyMinByDist t d ds) ≤ dateDist t x)) ∧
    (∀ d1 d2 p1 p2 t n1 n2, prices = [(d1, p1), (d2, p2)] →
        List.lookup row.proposalDate prices = none →
        strLe d1 d2 = true → n1 < n2 →
        parseDateDays row.proposalDate = some t →
        parseDateDays d1 = some n1 → parseDateDays d2 = some n2 →
        |n1 - t| = |n2 - t| →
        calculate_usd_value pricing remote row = row.adjustedAmount * p1) := by
  refine ⟨?_, ?_, ?_⟩
  · intro p hp
    refine calc_first_candidate pricing remote row prices _ h1 h2 h3 h4 ?_
    unfold resolveFromPrices
    rw [hp]
  · intro hnone d ds t hsort hparse hall
    have hall' : ((d :: ds).all fun x => (parseDateDays x).isSome) = true :=
      List.all_eq_true.mpr hall
    have h5 : resolveFromPrices prices row.proposalDate row.adjustedAmount
        = .price (row.adjustedAmount * ((List.lookup (pyMinByDist t d ds) prices).getD 0)) := by
      unfold resolveFromPrices
      rw [hnone, hsort]
      dsimp only
      rw [hparse]
      dsimp only
      rw [if_pos hall']
    refine ⟨calc_first_candidate pricing remote row prices _ h1 h2 h3 h4 h5, ?_, ?_⟩
    · have hm : pyMinByDist t d ds ∈ d :: ds := foldlMin_mem t ds d
      rw [← hsort] at hm
      exact ((sortStrs_perm (prices.map Prod.fst)).mem_iff).mp hm
    · intro x hx
      have hx' : x ∈ d :: ds := by
        rw [← hsort]
        exact ((sortStrs_perm (prices.map Prod.fst)).mem_iff).mpr hx
      exact foldlMin_le t ds d x hx'
  · intro d1 d2 p1 p2 t n1 n2 hp hnone hle _hn12 hparset hparse1 hparse2 htie
    subst hp
    have hd1 : dateDist t d1 = |n1 - t| := by unfold dateDist; rw [hparse1]; rfl
    have hd2 : dateDist t d2 = |n2 - t| := by unfold dateDist; rw [hparse2]; rfl
    have h5 : resolveFromPrices [(d1, p1), (d2, p2)] row.proposalDate row.adjustedAmount
        = .price (row.adjustedAmount * p1) := by
      unfold resolveFromPrices
      rw [hnone]
      have hsort2 : sortStrs ([(d1, p1), (d2, p2)].map Prod.fst) = [d1, d2] := by
        unfold sortStrs
        dsimp only [List.map]
        rw [List.foldr_cons, List.foldr_cons, List.foldr_nil]
        rw [show insertSorted d2 [] = [d2] from rfl]
        unfold insertSorted
        rw [if_pos hle]
      rw [hsort2]
      dsimp only
      rw [hparset]
      dsimp only
      rw [if_pos (by simp [hparse1, hparse2])]
      unfold pyMinByDist
      rw [List.foldl_cons, List.foldl_nil]
      rw [hd1, hd2, htie, if_neg (lt_irrefl _)]
      simp [List.lookup]
    exact calc_first_candidate pricing remote row _ _ h1 h2 h3 h4 h5

/-- Witness for **C4**: the spec's tie-break scenario — `OSMO` priced `2`
on `2024-01-01` and `7` on `2024-01-03`, proposal date `2024-01-02` — is
valued with the earlier date's price: `5 * 2`. -/
theorem C4_exact_then_nearest_date_witness :
    calculate_usd_value [("OSMO", [("2024-01-01", 2), ("2024-01-03", 7)])] (fun _ _ => none)
      { adjustedAmount := 5, displaySymbol := "OSMO", proposalDate := "2024-01-02" } = 5 * 2 :=
  (C4_exact_then_nearest_date [("OSMO", [("2024-01-01", 2), ("2024-01-03", 7)])]
      (fun _ _ => none)
      { adjustedAmount := 5, displaySymbol := "OSMO", proposalDate := "2024-01-02" }
      [("2024-01-01", 2), ("2024-01-03", 7)]
      (by decide) (by decide) (by decide) rfl).2.2
    "2024-01-01" "2024-01-03" 2 7 19724 19723 19725 rfl rfl (by decide) (by decide)
    rfl rfl rfl (by decide)

/-- **C5**, counterexample. The claim says a wasm execute message whose
string payload fails decoding contributes zero payment records. With a
non-empty `funds` array the message still contributes: a failed-decode
message with one `50 uosmo` fund emits exactly one `wasm_execute_funds`
record. -/
theorem C5_decode_failure_cex :
    (process_wasm_message (fun _ => none)
        (some { contract := "c1", msg := .str "%%%",
                funds := [{ denom := "uosmo", amount := "50" }] })
        "1" "t" "x" "d" "Ops" "osmo1sub").map Payment.messageType
      = ["wasm_execute_funds"] := by
  simp [process_wasm_message, decode_wasm_message, wasmItemsLoop, wasmTransferSection,
    wasmTransferOne, parse_contract_execution, extract_method_name, extract_recursive_payments,
    fundsPayLoop, pyInt?, digitsToNat, List.lookup, mkExecFundPayment]

/-- **C5**, amended: when the base64/UTF-8/JSON decode of a string wasm
payload fails, the decoder returns an empty object and never raises, and
the decoded payload contributes zero payment records — but coins attached
in the `funds` array are still emitted, one `wasm_execute_funds` record per
entry (so the whole message yields zero records exactly when `funds` is
empty); extraction of the remaining messages of the proposal proceeds
independently, one message at a time. -/
theorem C5_decode_failure_amended (dec : String → Option JVal) (s : String)
    (hdec : dec s = none) :
    decode_wasm_message dec (.str s) = .obj [] ∧
    (∀ (contract : String) (funds : List Coin) (pid ptitle ptext pdate subunit subAddr : String),
        (∀ f ∈ funds, (pyInt? f.amount).isSome) →
        process_wasm_message dec (some { contract := contract, msg := .str s, funds := funds })
            pid ptitle ptext pdate subunit subAddr
          = funds.map fun f => mkExecFundPayment [] contract pid ptitle ptext pdate subunit subAddr f
              ((pyInt? f.amount).getD 0)
              (if f.denom = "uosmo" then (((pyInt? f.amount).getD 0 : Int) : ℚ) / 1000000
               else (((pyInt? f.amount).getD 0 : Int) : ℚ))) ∧
    (∀ (b64 : String → Option String) (id title desc date : String) (m : Msg) (ms : List Msg)
        (subunit subAddr : String),
        extract_payments_from_proposal b64 dec ⟨id, ⟨title, desc, m :: ms⟩, date⟩ subunit subAddr
          = process_message b64 dec m id title ((title ++ "\n" ++ desc).trim) date subunit subAddr
            ++ extract_payments_from_proposal b64 dec ⟨id, ⟨title, desc, ms⟩, date⟩ subunit subAddr) := by
  refine ⟨?_, ?_, ?_⟩
  · rw [show decode_wasm_message dec (.str s) = (dec s).getD (.obj []) from rfl, hdec]
    rfl
  · intro contract funds pid ptitle ptext pdate subunit subAddr hparse
    simp only [process_wasm_message, decode_wasm_message]
    rw [hdec]
    simp only [Option.getD_none]
    rw [fundsPayLoop_map _ funds hparse]
    simp [wasmItemsLoop, wasmTransferSection, wasmTransferOne, List.lookup,
      parse_contract_execution, extract_method_name, extract_recursive_payments]
  · intro b64 id title desc date m ms subunit subAddr
    simp [extract_payments_from_proposal]

/-- Witness for **C5**: a payload rejected by the decode oracle yields the
empty object, and with one `50 uosmo` fund the message emits exactly the
one-per-coin funds records. -/
theorem C5_decode_failure_amended_witness :
    decode_wasm_message (fun _ => none) (.str "%%%") = .obj [] ∧
    process_wasm_message (fun _ => none)
        (some { contract := "c1", msg := .str "%%%",
                funds := [{ denom := "uosmo", amount := "50" }] })
        "1" "t" "x" "d" "Ops" "osmo1sub"
      = ([{ denom := "uosmo", amount := "50" }] : List Coin).map fun f =>
          mkExecFundPayment [] "c1" "1" "t" "x" "d" "Ops" "osmo1sub" f
            ((pyInt? f.amount).getD 0)
            (if f.denom = "uosmo" then (((pyInt? f.amount).getD 0 : Int) : ℚ) / 1000000
             else (((pyInt? f.amount).getD 0 : Int) : ℚ)) :=
  have h := C5_decode_failure_amended (fun _ => none) "%%%" rfl
  ⟨h.1, h.2.1 "c1" [{ denom := "uosmo", amount := "50" }] "1" "t" "x" "d" "Ops" "osmo1sub"
    (by decide)⟩

/-- **C8**: the six amount buckets are total and pairwise non-overlapping
on the non-negative rationals (every amount satisfies exactly one bucket
interval), `_categorize_amount` maps each amount to the label of its
bucket in the fixed display order `category_order` of the report
generator, that order lists buckets by strictly decreasing amounts (any
member of an earlier bucket exceeds any member of a later one) and is not
the alphabetical order; `_categorize_transaction` is likewise total,
always producing exactly one of its seven labels. -/
theorem C8_bucket_totality_order :
    (∀ amt : ℚ, 0 ≤ amt → ∃! i : Fin 6, amountBucketSpec i amt) ∧
    (∀ (row : Row) (i : Fin 6), amountBucketSpec i row.adjustedAmount →
        categorize_amount row = amountCategoryOrder.getD i.val "") ∧
    (∀ i j : Fin 6, i < j → ∀ a b : ℚ, amountBucketSpec i a → amountBucketSpec j b → b < a) ∧
    (∀ row : Row, categorize_transaction row ∈ txCategories) ∧
    amountCategoryOrder ≠ sortStrs amountCategoryOrder := by
  refine ⟨?_, ?_, ?_, ?_, ?_⟩
  · intro amt _
    exact ⟨bucketIdx amt, amountBucketSpec_bucketIdx amt,
      fun y hy => amountBucketSpec_disjoint y (bucketIdx amt) amt hy (amountBucketSpec_bucketIdx amt)⟩
  · intro row i h
    fin_cases i <;>
      simp only [amountBucketSpec, if_true, if_false] at h <;>
      unfold categorize_amount amountCategoryOrder <;>
      dsimp only <;>
      split_ifs <;>
      first | rfl | (exfalso; simp_all; try linarith)
  · intro i j hij a b ha hb
    fin_cases i <;> fin_cases j <;> simp_all [amountBucketSpec] <;> try linarith
  · intro row
    unfold categorize_transaction txCategories
    dsimp only
    split_ifs <;> simp
  · decide

/-- Witness for **C8**: `60000` lies in the second bucket and is labelled
`Large (50K-100K OSMO)`, the second entry of the display order. -/
theorem C8_bucket_totality_order_witness :
    categorize_amount { adjustedAmount := 60000 } = amountCategoryOrder.getD (1 : Fin 6).val "" :=
  C8_bucket_totality_order.2.1 { adjustedAmount := 60000 } 1 (by norm_num [amountBucketSpec])

end DaoLedger

